import Mathlib

/-!
Shallow embedding of the Technical Analysis Engine of the `stock_kite`
backend (`kite_backend/services/technical_analysis_service.py`), together
with proofs checking the natural-language specification against it.

Conventions used throughout the embedding:
* Python/numpy floats are modelled as exact rationals (`ℚ`).
* A pandas `NaN` entry (an undefined indicator value) is modelled as
  `Option.none`; the `fillna(0)` serialization step of the source becomes
  `Option.getD · 0`.
* A raised Python exception is modelled as `Except.error`.
* Candle timestamps play no role in any verified property, so a candle
  is identified by its position in the series.
-/

/-- Equality of `Except` values is decidable whenever it is on both
components; used to evaluate the embedded computations on concrete
inputs. -/
instance {ε α : Type} [DecidableEq ε] [DecidableEq α] : DecidableEq (Except ε α) := fun a b =>
  match a, b with
  | Except.error e, Except.error f =>
      if h : e = f then isTrue (by rw [h]) else isFalse (by simp [h])
  | Except.error _, Except.ok _ => isFalse (by simp)
  | Except.ok _, Except.error _ => isFalse (by simp)
  | Except.ok x, Except.ok y =>
      if h : x = y then isTrue (by rw [h]) else isFalse (by simp [h])

/-- One OHLCV candle.  `open` is a Lean keyword, hence the field `open_`. -/
structure Candle where
  open_ : ℚ
  high : ℚ
  low : ℚ
  close : ℚ
  volume : ℚ
deriving DecidableEq

instance : Inhabited Candle := ⟨⟨0, 0, 0, 0, 0⟩⟩

/-- Rolling arithmetic mean of `closes` with window `p` at index `i`
(pandas `Series.rolling(window=p).mean()`): defined once `p` values are
available, i.e. for `p - 1 ≤ i < length`. -/
def smaOpt (closes : List ℚ) (p : ℕ) (i : ℕ) : Option ℚ :=
  if p ≤ i + 1 ∧ i < closes.length then
    some (((closes.drop (i + 1 - p)).take p).sum / p)
  else
    none

/-- Embeds the Python expression at `technical_analysis_service.py:120`
(`_calculate_ma`, and identically `_calculate_ema` line 137 and
`_calculate_vwap` line 247):

`signal = "BULLISH" if current_price > current_value else "BEARISH" if current_value else "NEUTRAL"`

Python evaluates `current_price > current_value` first; when
`current_value` is `None` this raises
`TypeError: '>' not supported between instances of 'float' and 'NoneType'`,
modelled as `Except.error ()`.  When the comparison is false the chain
tests the *truthiness* of `current_value`, so a defined value of `0.0`
falls through to `"NEUTRAL"`. -/
def pySignalChain (currentPrice : ℚ) (currentValue : Option ℚ) : Except Unit String :=
  match currentValue with
  | none => Except.error ()
  | some v =>
      if v < currentPrice then Except.ok "BULLISH"
      else if v ≠ 0 then Except.ok "BEARISH"
      else Except.ok "NEUTRAL"

/-- Result record of `_calculate_ma` (a `MAResult`).  The `values` array is
the `fillna(0)` serialization of the rolling mean. -/
structure MAResult where
  name : String
  values : List ℚ
  current_value : Option ℚ
  signal : String
  period : ℕ
  ma_type : String
deriving DecidableEq

/-- Embedding of `_calculate_ma` (technical_analysis_service.py lines
114-129).  `ma_values.iloc[-1]` is the last entry of the rolling-mean
series; the Python signal expression may raise (see `pySignalChain`), in
which case the whole call raises. -/
def calculate_ma (candles : List Candle) (period : ℕ) : Except Unit MAResult :=
  let closes := candles.map Candle.close
  let maVals := (List.range closes.length).map (smaOpt closes period)
  let current_value := (maVals.getLastD none)
  let current_price := closes.getLastD 0
  match pySignalChain current_price current_value with
  | Except.error e => Except.error e
  | Except.ok sig =>
      Except.ok
        { name := "SMA_" ++ toString period
          values := maVals.map (fun v => v.getD 0)
          current_value := current_value
          signal := sig
          period := period
          ma_type := "SMA" }

/-- Modelled from the spec: the external `ta` library's VWAP used by
`_calculate_vwap` (lines 239-254) — "cumulative (typical-price × volume) /
cumulative volume over the supplied series".  A zero cumulative volume
makes the float quotient undefined (`0/0 = NaN`), modelled as `none`. -/
def vwapOpt (candles : List Candle) (i : ℕ) : Option ℚ :=
  if i < candles.length then
    let pre := candles.take (i + 1)
    let num := (pre.map (fun c => (c.high + c.low + c.close) / 3 * c.volume)).sum
    let den := (pre.map Candle.volume).sum
    if den = 0 then none else some (num / den)
  else none

/-- Result record of `_calculate_vwap` (a `VWAPResult`). -/
structure VWAPResult where
  name : String
  values : List ℚ
  current_value : Option ℚ
  signal : String
deriving DecidableEq

/-- Embedding of `_calculate_vwap` (technical_analysis_service.py lines
239-254); the signal expression is the same raising chain as in
`_calculate_ma`. -/
def calculate_vwap (candles : List Candle) : Except Unit VWAPResult :=
  let vwapVals := (List.range candles.length).map (vwapOpt candles)
  let current_value := vwapVals.getLastD none
  let current_price := (candles.map Candle.close).getLastD 0
  match pySignalChain current_price current_value with
  | Except.error e => Except.error e
  | Except.ok sig =>
      Except.ok
        { name := "VWAP"
          values := vwapVals.map (fun v => v.getD 0)
          current_value := current_value
          signal := sig }

/-- A 50-candle series whose every close is `0` (all other fields `0`,
volume `1`): accepted for analysis (length `50 ≥ 50`) and gives
`SMA_20` a *defined* current value of `0`. -/
def zeroCloseSeries : List Candle := List.replicate 50 ⟨0, 0, 0, 0, 1⟩

/-- A 50-candle series with zero volume throughout: accepted for analysis,
but the cumulative VWAP quotient is `0/0`, so the current VWAP value is
undefined. -/
def zeroVolumeSeries : List Candle := List.replicate 50 ⟨10, 10, 10, 10, 0⟩

/-- One candlestick pattern occurrence (a `CandlestickPattern`;
`timestamp` and `description` carry no verified content and are elided,
the candle is identified by `candle_index`). -/
structure Pattern where
  name : String
  pattern_type : String
  confidence : ℚ
  candle_index : ℕ
deriving DecidableEq

/-- Per-family pattern scan result (a `PatternResult`); `last_occurrence`
is the candle index of the final match in series order (the source stores
that candle's timestamp). -/
structure PatternResult where
  pattern_name : String
  occurrences : List Pattern
  total_count : ℕ
  last_occurrence : Option ℕ
deriving DecidableEq

/-- Packages a finished occurrence list the way every `_detect_*_pattern`
function does: `total_count = len(patterns)` and `last_occurrence` taken
from the final match if any. -/
def mkPatternResult (name : String) (occs : List Pattern) : PatternResult :=
  ⟨name, occs, occs.length, occs.getLast?.map Pattern.candle_index⟩

/-- Embedding of `_detect_hammer_pattern` (lines 810-858): small body,
long lower shadow, minimal upper shadow; candles with zero total range
are skipped. -/
def detect_hammer_pattern (candles : List Candle) : PatternResult :=
  mkPatternResult "Hammer" <| (List.range candles.length).filterMap (fun i =>
    let c := candles.getD i default
    let body := |c.close - c.open_|
    let range := c.high - c.low
    let lowerShadow := min c.open_ c.close - c.low
    let upperShadow := c.high - max c.open_ c.close
    if 0 < range then
      let br := body / range
      let lsr := lowerShadow / range
      let usr := upperShadow / range
      if br < 3/10 ∧ 6/10 < lsr ∧ usr < 1/10 then
        some ⟨"Hammer", "bullish", min (9/10) (1/2 + (lsr - br)), i⟩
      else none
    else none)

/-- Embedding of `_detect_doji_pattern` (lines 860-900): body below 5% of
the total range; candles with zero total range are skipped. -/
def detect_doji_pattern (candles : List Candle) : PatternResult :=
  mkPatternResult "Doji" <| (List.range candles.length).filterMap (fun i =>
    let c := candles.getD i default
    let body := |c.close - c.open_|
    let range := c.high - c.low
    if 0 < range then
      let br := body / range
      if br < 1/20 then
        some ⟨"Doji", "neutral", min (9/10) (8/10 - br * 10), i⟩
      else none
    else none)

/-- Embedding of `_detect_marubozu_pattern` (lines 902-947): dominant body
with minimal shadows; direction given by close versus open. -/
def detect_marubozu_pattern (candles : List Candle) : PatternResult :=
  mkPatternResult "Marubozu" <| (List.range candles.length).filterMap (fun i =>
    let c := candles.getD i default
    let body := |c.close - c.open_|
    let range := c.high - c.low
    let lowerShadow := min c.open_ c.close - c.low
    let upperShadow := c.high - max c.open_ c.close
    if 0 < range then
      let br := body / range
      let sr := (lowerShadow + upperShadow) / range
      if 9/10 < br ∧ sr < 1/10 then
        some ⟨"Marubozu", if c.open_ < c.close then "bullish" else "bearish",
              min (9/10) br, i⟩
      else none
    else none)

/-- Embeds `min(0.9, 0.6 + (curr_body / prev_body) * 0.1)` from
`_detect_engulfing_pattern` (lines 982 and 1001).  The operands are numpy
float64 values, so a zero previous body does *not* raise: the quotient is
`+inf` (the matched current candle has a strictly positive body) and
`min(0.9, 0.6 + inf) = 0.9`.  IEEE `+inf` is not a rational, so that
branch is written out explicitly. -/
def engulfingConfidence (currBody prevBody : ℚ) : ℚ :=
  if prevBody = 0 then 9/10
  else min (9/10) (6/10 + currBody / prevBody * (1/10))

/-- Embedding of `_detect_engulfing_pattern` (lines 949-1018): a bullish
(resp. bearish) candle whose body and high/low envelop the previous
opposite-direction candle.  Note there is no guard on the previous body
length here, unlike `_detect_harami_pattern`. -/
def detect_engulfing_pattern (candles : List Candle) : PatternResult :=
  mkPatternResult "Engulfing" <| (List.range' 1 (candles.length - 1)).filterMap (fun i =>
    let curr := candles.getD i default
    let prev := candles.getD (i - 1) default
    let currBull := curr.open_ < curr.close
    let prevBull := prev.open_ < prev.close
    let currBody := |curr.close - curr.open_|
    let prevBody := |prev.close - prev.open_|
    if ¬prevBull ∧ currBull ∧ curr.open_ < prev.close ∧ prev.open_ < curr.close ∧
        prev.high ≤ curr.high ∧ curr.low ≤ prev.low then
      some ⟨"Bullish Engulfing", "bullish", engulfingConfidence currBody prevBody, i⟩
    else if prevBull ∧ ¬currBull ∧ prev.close < curr.open_ ∧ curr.close < prev.open_ ∧
        prev.high ≤ curr.high ∧ curr.low ≤ prev.low then
      some ⟨"Bearish Engulfing", "bearish", engulfingConfidence currBody prevBody, i⟩
    else none)

/-- Embedding of `_detect_harami_pattern` (lines 1020-1070): the current
body lies strictly inside the previous body, the previous body is
strictly positive (the explicit `prev_body_length > 0` guard), and the
current body is under half of it. -/
def detect_harami_pattern (candles : List Candle) : PatternResult :=
  mkPatternResult "Harami" <| (List.range' 1 (candles.length - 1)).filterMap (fun i =>
    let curr := candles.getD i default
    let prev := candles.getD (i - 1) default
    let currTop := max curr.open_ curr.close
    let currBot := min curr.open_ curr.close
    let prevTop := max prev.open_ prev.close
    let prevBot := min prev.open_ prev.close
    let currBody := |curr.close - curr.open_|
    let prevBody := |prev.close - prev.open_|
    if currTop < prevTop ∧ prevBot < currBot ∧ 0 < prevBody ∧ currBody / prevBody < 1/2 then
      some ⟨"Harami", if prev.open_ < prev.close then "bearish" else "bullish",
            min (9/10) (7/10 - currBody / prevBody), i⟩
    else none)

/-- Embedding of `_detect_morning_star_pattern` (lines 1072-1134): bearish
candle, small-bodied middle candle with a gap, bullish candle closing
above the first candle's midpoint. -/
def detect_morning_star_pattern (candles : List Candle) : PatternResult :=
  mkPatternResult "Morning Star" <| (List.range' 2 (candles.length - 2)).filterMap (fun i =>
    let c1 := candles.getD (i - 2) default
    let c2 := candles.getD (i - 1) default
    let c3 := candles.getD i default
    let c1b := |c1.close - c1.open_|
    let c2b := |c2.close - c2.open_|
    let c3b := |c3.close - c3.open_|
    let gapDown := c2.high < min c1.open_ c1.close
    let gapUp := max c2.open_ c2.close < c3.open_
    if c1.close < c1.open_ ∧ c3.open_ < c3.close ∧ c2b < c1b * (1/2) ∧
        (c1.open_ + c1.close) / 2 < c3.close ∧ (gapDown ∨ gapUp) then
      some ⟨"Morning Star", "bullish",
            min (9/10) (6/10 + (if gapDown ∧ gapUp then 1/10 else 1/20) +
              (1 - c2b / max c1b c3b) * (1/5)), i⟩
    else none)

/-- Union of the six per-family scans, mirroring `_detect_all_patterns`
(lines 794-808). -/
def allPatternOccurrences (candles : List Candle) : List Pattern :=
  (detect_hammer_pattern candles).occurrences ++
  (detect_doji_pattern candles).occurrences ++
  (detect_marubozu_pattern candles).occurrences ++
  (detect_engulfing_pattern candles).occurrences ++
  (detect_harami_pattern candles).occurrences ++
  (detect_morning_star_pattern candles).occurrences

/-- Rolling sample variance of `closes` with window `p` at index `i`
(pandas `Series.rolling(window=p).std()` squared, `ddof=1`), used by
`_calculate_bollinger_bands` line 209. -/
def rvarOpt (closes : List ℚ) (p : ℕ) (i : ℕ) : Option ℚ :=
  if p ≤ i + 1 ∧ i < closes.length then
    let w := (closes.drop (i + 1 - p)).take p
    let m := w.sum / p
    some ((w.map (fun x => (x - m) ^ 2)).sum / ((p : ℚ) - 1))
  else none

/-- Upper Bollinger band series of `_calculate_bollinger_bands` (lines
204-237): `middle + k·std`, defined exactly where both the rolling mean
and the rolling standard deviation are; the square root lives in `ℝ`.
The middle band itself is `smaOpt`. -/
noncomputable def bbUpperOpt (closes : List ℚ) (p : ℕ) (k : ℚ) (i : ℕ) : Option ℝ :=
  match smaOpt closes p i, rvarOpt closes p i with
  | some m, some v => some ((m : ℝ) + (k : ℝ) * Real.sqrt (v : ℝ))
  | _, _ => none

/-- Lower Bollinger band series, `middle − k·std` (line 213). -/
noncomputable def bbLowerOpt (closes : List ℚ) (p : ℕ) (k : ℚ) (i : ℕ) : Option ℝ :=
  match smaOpt closes p i, rvarOpt closes p i with
  | some m, some v => some ((m : ℝ) - (k : ℝ) * Real.sqrt (v : ℝ))
  | _, _ => none

/-- A flat 60-candle series: one candle with
`open = close = high = low = c` and volume `v`, repeated 60 times. -/
def flatCandleSeries (c v : ℚ) : List Candle := List.replicate 60 ⟨c, c, c, c, v⟩

/-- The concrete flat series at price 100 used for evaluation. -/
def flatSeries : List Candle := flatCandleSeries 100 1000

/-- A two-candle series: a flat previous candle (zero body length) whose
high/low/body are enveloped by a bullish current candle.  It satisfies
every conjunct of the bullish-engulfing condition. -/
def engulfZeroBodyExample : List Candle :=
  [⟨10, 10, 10, 10, 5⟩, ⟨9, 11, 9, 11, 5⟩]

/-- A two-candle series producing a Harami occurrence at index 1: a large
bullish candle followed by a small candle strictly inside its body. -/
def haramiExample : List Candle :=
  [⟨0, 11, -1, 10, 1⟩, ⟨4, 7, 3, 6, 1⟩]

/-- A single-candle series producing exactly one Doji occurrence with
confidence `0.8`. -/
def dojiExample : List Candle := [⟨10, 11, 9, 10, 1⟩]

/-- A support/resistance level (a `SupportResistanceLevel`).  The
`last_touch_timestamp`, `volume_at_level` and `is_dynamic` fields carry
no verified content and are elided. -/
structure Level where
  price : ℚ
  level_type : String
  strength : ℚ
  touches : ℕ
  distance_from_current : ℚ
deriving DecidableEq

/-- The inner `for existing in unique_levels` scan of the dedupe loop in
`_classify_and_rank_levels` (lines 544-553): find the first retained
level within 0.1% (relative to the retained level's price) of the
incoming one; on a match, replace it by the incoming level when the
incoming one is strictly stronger (Python removes it from the list and
appends the incoming level at the end), otherwise drop the incoming
level; `none` means no match (not a duplicate). -/
def dedupeScan (l : Level) : List Level → Option (List Level)
  | [] => none
  | e :: rest =>
      if |l.price - e.price| / e.price * 100 < 1/10 then
        some (if e.strength < l.strength then rest ++ [l] else e :: rest)
      else
        (dedupeScan l rest).map (fun r => e :: r)

/-- One iteration of the outer dedupe loop: a non-duplicate is appended. -/
def dedupeStep (unique : List Level) (l : Level) : List Level :=
  match dedupeScan l unique with
  | none => unique ++ [l]
  | some r => r

/-- The full merge-and-dedupe stage (lines 542-555): fold every candidate
level through `dedupeStep`, starting from the empty retained list. -/
def dedupeLevels (levels : List Level) : List Level := levels.foldl dedupeStep []

/-- First retained level within 0.1% of `l`, by scan order — the level the
incoming candidate is compared against. -/
def firstWithin (l : Level) : List Level → Option Level
  | [] => none
  | e :: rest =>
      if |l.price - e.price| / e.price * 100 < 1/10 then some e
      else firstWithin l rest

/-- The retained list with the first within-0.1% match of `l` removed. -/
def eraseFirstWithin (l : Level) : List Level → List Level
  | [] => []
  | e :: rest =>
      if |l.price - e.price| / e.price * 100 < 1/10 then rest
      else e :: eraseFirstWithin l rest

/-- Weakest of three candidate levels at mutually close prices. -/
def dupLevelA : Level := ⟨100, "support", 1, 1, 0⟩

/-- Mid-strength candidate `0.15%` above `dupLevelA` — retained alongside
it (they are not within 0.1%). -/
def dupLevelB : Level := ⟨100 + 3/20, "support", 5, 1, 0⟩

/-- Strongest candidate `0.08%` above `dupLevelA`: it replaces
`dupLevelA` but is never compared against `dupLevelB`. -/
def dupLevelC : Level := ⟨100 + 2/25, "support", 10, 1, 0⟩

/-- The per-level reclassification of `_classify_and_rank_levels` (lines
557-566): distance from current price is recomputed and `level_type` is
reassigned purely from the comparison with the current price, overriding
whatever the detection stage stored. -/
def reclassifyLevel (currentPrice : ℚ) (l : Level) : Level :=
  { price := l.price
    level_type := if l.price < currentPrice then "support" else "resistance"
    strength := l.strength
    touches := l.touches
    distance_from_current := |l.price - currentPrice| / currentPrice * 100 }

/-- Stable descending-by-strength insertion, modelling Python's stable
`list.sort(key=strength, reverse=True)` (lines 569-570): an element moves
left past strictly weaker ones only, so equal strengths keep their
original order. -/
def insertByStrengthDesc (l : Level) : List Level → List Level
  | [] => [l]
  | e :: rest =>
      if e.strength ≤ l.strength then l :: e :: rest
      else e :: insertByStrengthDesc l rest

/-- Stable sort by strength, descending. -/
def sortByStrengthDesc (levels : List Level) : List Level :=
  levels.foldr insertByStrengthDesc []

/-- Embedding of `_classify_and_rank_levels` (lines 535-572): dedupe,
reclassify against the current price, split into supports (price below
current) and resistances (the rest), each sorted by strength
descending. -/
def classify_and_rank_levels (allLevels : List Level) (currentPrice : ℚ) :
    List Level × List Level :=
  let uniq := dedupeLevels allLevels
  let upd := uniq.map (reclassifyLevel currentPrice)
  (sortByStrengthDesc (upd.filter (fun l => l.price < currentPrice)),
   sortByStrengthDesc (upd.filter (fun l => ¬ l.price < currentPrice)))

/-- Python's `max(xs, key=f)` over a nonempty list, accumulator style: a
later element replaces the current best only when strictly greater, so
the first maximum wins. -/
def pyMaxBy (f : Level → ℚ) : Level → List Level → Level
  | x, [] => x
  | x, y :: ys => pyMaxBy f (if f x < f y then y else x) ys

/-- Python's `min(xs, key=f)` over a nonempty list. -/
def pyMinBy (f : Level → ℚ) : Level → List Level → Level
  | x, [] => x
  | x, y :: ys => pyMinBy f (if f y < f x then y else x) ys

/-- Embedding of `_find_nearest_level` (lines 574-592): filter the levels
strictly below (resp. above) the current price and take the one with
maximal (resp. minimal) price; `none` when no level qualifies. -/
def find_nearest_level (levels : List Level) (currentPrice : ℚ)
    (direction : String) : Option Level :=
  if levels.isEmpty then none
  else if direction = "below" then
    match levels.filter (fun l => l.price < currentPrice) with
    | [] => none
    | v :: vs => some (pyMaxBy Level.price v vs)
  else if direction = "above" then
    match levels.filter (fun l => currentPrice < l.price) with
    | [] => none
    | v :: vs => some (pyMinBy Level.price v vs)
  else none

/-- The 5-candle trailing percentage price change of
`_generate_price_action_signal` (lines 604-605):
`(recent_closes[-1] - recent_closes[0]) / recent_closes[0] * 100` over
the last five closes. -/
def trailingChange (closes : List ℚ) : ℚ :=
  let recent := closes.drop (closes.length - 5)
  (recent.getLastD 0 - recent.headD 0) / recent.headD 0 * 100

/-- The 2%-proximity test of lines 610/616, `False` for an absent level. -/
def nearLevel (currentPrice : ℚ) : Option Level → Bool
  | some l => decide (|currentPrice - l.price| / currentPrice * 100 ≤ 2)
  | none => false

/-- The resistance half of `_generate_price_action_signal` (lines
616-622), reached whenever the support half does not return: within 2% of
the nearest resistance, a rise above 1% is `APPROACHING_RESISTANCE` and a
current price above the level is `BREAKOUT`; otherwise `NEUTRAL`. -/
def resistanceSignalPart (currentPrice priceChange : ℚ) : Option Level → String
  | some r =>
      if |currentPrice - r.price| / currentPrice * 100 ≤ 2 then
        if 1 < priceChange then "APPROACHING_RESISTANCE"
        else if r.price < currentPrice then "BREAKOUT"
        else "NEUTRAL"
      else "NEUTRAL"
  | none => "NEUTRAL"

/-- Embedding of `_generate_price_action_signal` (lines 594-622).  Fewer
than five candles give `NEUTRAL`; the support block may return
`APPROACHING_SUPPORT` or `BREAKDOWN`, and otherwise control falls through
to the resistance block (`resistanceSignalPart`). -/
def generate_price_action_signal (closes : List ℚ) (currentPrice : ℚ)
    (nearestSupport nearestResistance : Option Level) : String :=
  if closes.length < 5 then "NEUTRAL"
  else
    let priceChange := trailingChange closes
    match nearestSupport with
    | some s =>
        if |currentPrice - s.price| / currentPrice * 100 ≤ 2 then
          if priceChange < -1 then "APPROACHING_SUPPORT"
          else if currentPrice < s.price then "BREAKDOWN"
          else resistanceSignalPart currentPrice priceChange nearestResistance
        else resistanceSignalPart currentPrice priceChange nearestResistance
    | none => resistanceSignalPart currentPrice priceChange nearestResistance

/-- Result record of `_calculate_support_resistance` (a
`SupportResistanceResult`); the `key_level_breaks` list of stage 8 is not
referenced by any verified property and is elided. -/
structure SupportResistanceResult where
  support_levels : List Level
  resistance_levels : List Level
  nearest_support : Option Level
  nearest_resistance : Option Level
  current_price : ℚ
  price_action_signal : String
deriving DecidableEq

/-- Embedding of `_calculate_support_resistance` (lines 256-291),
parameterized by the union `all_levels` of the three detection stages
(any candidate list the stages could produce): classify and rank, keep
the top five per side, find the nearest levels on the *full* ranked
lists, and derive the price-action signal. -/
def calculate_support_resistance (allLevels : List Level) (closes : List ℚ) :
    SupportResistanceResult :=
  let currentPrice := closes.getLastD 0
  let sr := classify_and_rank_levels allLevels currentPrice
  let ns := find_nearest_level sr.1 currentPrice "below"
  let nr := find_nearest_level sr.2 currentPrice "above"
  { support_levels := sr.1.take 5
    resistance_levels := sr.2.take 5
    nearest_support := ns
    nearest_resistance := nr
    current_price := currentPrice
    price_action_signal := generate_price_action_signal closes currentPrice ns nr }

/-- Candidate levels with deliberately wrong provisional labels, to show
the classification overrides them. -/
def c8Levels : List Level := [⟨90, "resistance", 5, 1, 0⟩, ⟨110, "support", 3, 1, 0⟩]

/-- A one-candle close series giving current price 100. -/
def c8Closes : List ℚ := [100]

/-- A single candidate support level 2% below the current price. -/
def c2Levels : List Level := [⟨98, "support", 5, 1, 0⟩]

/-- Five flat closes: the trailing change is zero. -/
def c2Closes : List ℚ := [100, 100, 100, 100, 100]

/-- Exponential smoothing scan: emits the seed, then folds
`α·x + (1−α)·previous` over the remaining values. -/
def emaScan (a : ℚ) (seed : ℚ) : List ℚ → List ℚ
  | [] => [seed]
  | x :: rest => seed :: emaScan a (a * x + (1 - a) * seed) rest

/-- Modelled from the spec: the external `ta` library's EMA used by
`_calculate_macd` — "standard exponential smoothing, seed = first
SMA(period)", multiplier `2/(period+1)`, undefined for the first
`period − 1` indices. -/
def emaOpt (xs : List ℚ) (p : ℕ) (i : ℕ) : Option ℚ :=
  if p ≤ i + 1 ∧ i < xs.length ∧ 1 ≤ p then
    (emaScan (2 / ((p : ℚ) + 1)) ((xs.take p).sum / p) (xs.drop p)).get? (i + 1 - p)
  else none

/-- Modelled from the spec: MACD line = EMA(12) − EMA(26)
(`ta.trend.macd`, line 174), defined where both EMAs are. -/
def macdOpt (xs : List ℚ) (i : ℕ) : Option ℚ :=
  match emaOpt xs 12 i, emaOpt xs 26 i with
  | some f, some s => some (f - s)
  | _, _ => none

/-- The defined portion of the MACD line as a plain list: its `j`-th
entry is the MACD value at series index `25 + j` (always defined there,
so the `getD 0` never fires). -/
def macdDefList (xs : List ℚ) : List ℚ :=
  (List.range (xs.length - 25)).map (fun j => (macdOpt xs (25 + j)).getD 0)

/-- Modelled from the spec: signal line = EMA(9) of the MACD line
(`ta.trend.macd_signal`, line 177); the nine-value warm-up starts where
the MACD line becomes defined, so the signal line is defined from series
index 33 on. -/
def signalOpt (xs : List ℚ) (i : ℕ) : Option ℚ :=
  if 25 ≤ i then emaOpt (macdDefList xs) 9 (i - 25) else none

/-- Modelled from the spec: histogram = MACD line − signal line
(`ta.trend.macd_diff`, line 180), defined where both are. -/
def histOpt (xs : List ℚ) (i : ℕ) : Option ℚ :=
  match macdOpt xs i, signalOpt xs i with
  | some m, some s => some (m - s)
  | _, _ => none

/-- Result record of `_calculate_macd` (a `MACDResult`); the three arrays
are the `fillna(0)` serializations. -/
structure MACDResult where
  macd_line : List ℚ
  signal_line : List ℚ
  histogram : List ℚ
  current_macd : Option ℚ
  current_signal : Option ℚ
  current_histogram : Option ℚ
  signal : String
deriving DecidableEq

/-- Embedding of `_calculate_macd` (lines 172-202).  The summary signal
reproduces the Python truthiness test `if current_macd and
current_signal` (`None` and `0.0` both fall to `NEUTRAL`). -/
def calculate_macd (candles : List Candle) : MACDResult :=
  let closes := candles.map Candle.close
  let n := closes.length
  let cm := ((List.range n).map (macdOpt closes)).getLastD none
  let cs := ((List.range n).map (signalOpt closes)).getLastD none
  let ch := ((List.range n).map (histOpt closes)).getLastD none
  { macd_line := (List.range n).map (fun i => (macdOpt closes i).getD 0)
    signal_line := (List.range n).map (fun i => (signalOpt closes i).getD 0)
    histogram := (List.range n).map (fun i => (histOpt closes i).getD 0)
    current_macd := cm
    current_signal := cs
    current_histogram := ch
    signal :=
      match cm, cs with
      | some m, some s =>
          if m ≠ 0 ∧ s ≠ 0 then (if s < m then "BULLISH" else "BEARISH")
          else "NEUTRAL"
      | _, _ => "NEUTRAL" }

/-- A 50-candle monotonically rising series (close = index + 1). -/
def risingSeries : List Candle :=
  (List.range 50).map
    (fun i : ℕ => ⟨(i : ℚ) + 1, (i : ℚ) + 1, (i : ℚ) + 1, (i : ℚ) + 1, 1⟩)

/-- Is `needle` a prefix of the character list? -/
def substrAt : List Char → List Char → Bool
  | [], _ => true
  | _ :: _, [] => false
  | a :: as, b :: bs => a == b && substrAt as bs

/-- Does the character list contain `needle` as a contiguous substring? -/
def containsSub (needle : List Char) : List Char → Bool
  | [] => substrAt needle []
  | b :: t => substrAt needle (b :: t) || containsSub needle t

/-- Python's `needle in haystack` on strings (substring containment),
used by `_generate_summary` lines 695 and 697. -/
def pyIn (needle hay : String) : Bool := containsSub needle.data hay.data

/-- Python 3 integer rounding: nearest, ties to even. -/
def roundHalfEven (x : ℚ) : ℤ :=
  let f := ⌊x⌋
  let r := x - f
  if r < 1/2 then f
  else if 1/2 < r then f + 1
  else if f % 2 = 0 then f else f + 1

/-- Python's `round(x, 2)` (lines 736-738) on exact rationals:
round-half-to-even at two decimal places. -/
def pyRound2 (x : ℚ) : ℚ := (roundHalfEven (x * 100) : ℚ) / 100

/-- A per-timeframe analysis (a `TimeframeAnalysis`).  The `indicators`
dict is modelled by what `_generate_summary` reads from it: for each
stored indicator, its name and the value of the `'signal'` key (`none`
when the stored dict has no such key, as for the SupportResistance
entry, which makes `.get('signal', 'NEUTRAL')` fall back to
`"NEUTRAL"`). -/
structure TimeframeAnalysis where
  timeframe : String
  data_points : ℕ
  indicators : List (String × Option String)
deriving DecidableEq

/-- The aggregate summary (the dict built by `_generate_summary`),
restricted to the fields any claim mentions: the three signal
percentages, absent (the untouched `{}` default) when no signal was
counted.  The candlestick-pattern and support/resistance rollups do not
feed back into these numbers. -/
structure Summary where
  total_timeframes : ℕ
  overall_signals : Option (ℚ × ℚ × ℚ)
deriving DecidableEq

/-- The signal-counting loop of `_generate_summary` (lines 684-700): for
every indicator of every timeframe, bump the bullish counter when the
signal contains `"BULLISH"`, else the bearish counter when it contains
`"BEARISH"`, else the neutral counter. -/
def tallySignals (tfs : List TimeframeAnalysis) : ℕ × ℕ × ℕ :=
  tfs.foldl (fun acc tf =>
    tf.indicators.foldl (fun acc2 entry =>
      let signal := entry.2.getD "NEUTRAL"
      if pyIn "BULLISH" signal then (acc2.1 + 1, acc2.2.1, acc2.2.2)
      else if pyIn "BEARISH" signal then (acc2.1, acc2.2.1 + 1, acc2.2.2)
      else (acc2.1, acc2.2.1, acc2.2.2 + 1)) acc) (0, 0, 0)

/-- Embedding of `_generate_summary` (lines 674-791) restricted to the
claimed content: the percentage triple is computed over the total signal
count across all supplied (i.e. successful) timeframes, and only when
that total is positive (lines 733-739). -/
def generate_summary (tfs : List TimeframeAnalysis) : Summary :=
  let t := tallySignals tfs
  let total := t.1 + t.2.1 + t.2.2
  { total_timeframes := tfs.length
    overall_signals :=
      if 0 < total then
        some (pyRound2 ((t.1 : ℚ) / total * 100),
              pyRound2 ((t.2.1 : ℚ) / total * 100),
              pyRound2 ((t.2.2 : ℚ) / total * 100))
      else none }

/-- Specification-side predicate: the entry's signal contains
`"BULLISH"`. -/
def entryBullish (e : String × Option String) : Bool :=
  pyIn "BULLISH" (e.2.getD "NEUTRAL")

/-- Specification-side predicate: counted bearish — it is not counted
bullish and the signal contains `"BEARISH"`. -/
def entryBearish (e : String × Option String) : Bool :=
  !entryBullish e && pyIn "BEARISH" (e.2.getD "NEUTRAL")

/-- Specification-side predicate: counted neutral — the signal contains
neither `"BULLISH"` nor `"BEARISH"`. -/
def entryNeutral (e : String × Option String) : Bool :=
  !entryBullish e && !pyIn "BEARISH" (e.2.getD "NEUTRAL")

/-- Total bullish-counted indicator entries across the timeframes. -/
def bullishCount (tfs : List TimeframeAnalysis) : ℕ :=
  (tfs.map (fun tf => tf.indicators.countP entryBullish)).sum

/-- Total bearish-counted indicator entries across the timeframes. -/
def bearishCount (tfs : List TimeframeAnalysis) : ℕ :=
  (tfs.map (fun tf => tf.indicators.countP entryBearish)).sum

/-- Total neutral-counted indicator entries across the timeframes. -/
def neutralCount (tfs : List TimeframeAnalysis) : ℕ :=
  (tfs.map (fun tf => tf.indicators.countP entryNeutral)).sum

/-- Embedding of `_analyze_timeframe` (lines 61-96), parameterized by the
post-check analysis `body` (indicator and pattern computation, lines
74-96; `body` may itself raise, e.g. the `TypeError` of
`C1_signal_chain_code_bug`): retrieved data with fewer than 50 candles
raises a `ValueError` before any analysis runs. -/
def analyze_timeframe
    (body : List Candle → String → Except String TimeframeAnalysis)
    (data : List Candle) (tf : String) : Except String TimeframeAnalysis :=
  if data.length < 50 then Except.error "Insufficient data for analysis"
  else body data tf

/-- The per-timeframe loop of `analyze_stock` (lines 30-42): run each
requested timeframe, keep the successful analyses in request order, and
silently drop the failed ones. -/
def successfulAnalyses
    (body : List Candle → String → Except String TimeframeAnalysis)
    (getData : String → List Candle) (tfs : List String) :
    List TimeframeAnalysis :=
  tfs.foldr (fun tf acc =>
    match analyze_timeframe body (getData tf) tf with
    | Except.ok a => a :: acc
    | Except.error _ => acc) []

/-- The response record of `analyze_stock` (a
`TechnicalAnalysisResponse`, minus the fields with no verified
content). -/
structure AnalysisResponse where
  timeframe_results : List TimeframeAnalysis
  summary : Summary
deriving DecidableEq

/-- Embedding of `analyze_stock` (lines 24-59): if no timeframe
succeeded, raise the data-insufficiency `ValueError` of line 45;
otherwise aggregate the successful analyses into the summary. -/
def analyze_stock
    (body : List Candle → String → Except String TimeframeAnalysis)
    (getData : String → List Candle) (tfs : List String) :
    Except String AnalysisResponse :=
  let results := successfulAnalyses body getData tfs
  if results.isEmpty then
    Except.error "No successful analysis for any timeframe"
  else
    Except.ok ⟨results, generate_summary results⟩

/-- Trivial analysis body used to exercise the routing theorem. -/
def emptyBody (data : List Candle) (tf : String) :
    Except String TimeframeAnalysis :=
  Except.ok ⟨tf, data.length, []⟩

set_option maxRecDepth 4000 in
/-- C1.  The claim fails on the code at two accepted 50-candle inputs.
First, on `zeroCloseSeries` the current `SMA_20` value is *defined* and
equal to `0`, and the current close (`0`) is not greater than it, so the
claim requires `BEARISH`; the code's truthiness test `if current_value`
treats `0.0` as false and yields `NEUTRAL`.  Second, on
`zeroVolumeSeries` the current VWAP value is undefined, so the claim
requires `NEUTRAL` without aborting; the code evaluates
`current_price > None` and raises a `TypeError` instead. -/
theorem C1_signal_chain_code_bug :
    (calculate_ma zeroCloseSeries 20).map MAResult.signal = Except.ok "NEUTRAL" ∧
    (calculate_ma zeroCloseSeries 20).map MAResult.current_value = Except.ok (some 0) ∧
    calculate_vwap zeroVolumeSeries = Except.error () := by
  refine ⟨?_, ?_, ?_⟩ <;> exact of_decide_eq_true (by with_unfolding_all rfl)

set_option maxRecDepth 8000 in
/-- C4 counterexample.  On the flat 60-candle series every candle has
`total_range = high - low = 0`, so the division-by-zero guard at line 879
(`if total_range > 0`) skips the Doji check at *every* index: the
detector reports no occurrence at all, not an occurrence at every
index. -/
theorem C4_flat_doji_counterexample :
    (detect_doji_pattern flatSeries).occurrences = [] ∧ flatSeries.length = 60 :=
  ⟨of_decide_eq_true (by with_unfolding_all rfl), rfl⟩

/-- On any flat series every candle has zero total range, so the Doji
guard skips every index and the scan is empty. -/
theorem flat_doji_empty (c v : ℚ) :
    (detect_doji_pattern (flatCandleSeries c v)).occurrences = [] := by
  simp only [detect_doji_pattern, mkPatternResult]
  rw [List.filterMap_eq_nil_iff]
  intro i hi
  have hilt : i < 60 := by simpa [flatCandleSeries] using List.mem_range.mp hi
  have hget : (flatCandleSeries c v).getD i default = ⟨c, c, c, c, v⟩ := by
    rw [flatCandleSeries, List.getD_eq_getElem?_getD, List.getElem?_replicate,
      if_pos hilt]
    rfl
  simp only [hget]
  norm_num

/-- The rolling mean of a flat series is the flat value wherever it is
defined. -/
theorem flat_sma (c v : ℚ) (i : ℕ) (h1 : i < 60) (h2 : 19 ≤ i) :
    smaOpt ((flatCandleSeries c v).map Candle.close) 20 i = some c := by
  have hmap : (flatCandleSeries c v).map Candle.close = List.replicate 60 c := by
    simp [flatCandleSeries, List.map_replicate]
  have hwin : ((List.replicate 60 c).drop (i + 1 - 20)).take 20 =
      List.replicate 20 c := by
    rw [List.drop_replicate, List.take_replicate]
    congr 1
    omega
  rw [smaOpt, if_pos ⟨by omega, by rw [hmap, List.length_replicate]; omega⟩,
    hmap, hwin, List.sum_replicate, nsmul_eq_mul]
  norm_num

/-- The rolling sample variance of a flat series is zero wherever it is
defined. -/
theorem flat_rvar (c v : ℚ) (i : ℕ) (h1 : i < 60) (h2 : 19 ≤ i) :
    rvarOpt ((flatCandleSeries c v).map Candle.close) 20 i = some 0 := by
  have hmap : (flatCandleSeries c v).map Candle.close = List.replicate 60 c := by
    simp [flatCandleSeries, List.map_replicate]
  have hwin : ((List.replicate 60 c).drop (i + 1 - 20)).take 20 =
      List.replicate 20 c := by
    rw [List.drop_replicate, List.take_replicate]
    congr 1
    omega
  rw [rvarOpt, if_pos ⟨by omega, by rw [hmap, List.length_replicate]; omega⟩]
  simp only [hmap, hwin, List.map_replicate, List.sum_replicate, nsmul_eq_mul]
  norm_num

/-- C4 amended.  On every flat 60-candle series (one candle with
`open = close = high = low`, repeated) the Doji detector reports *no*
occurrences — the zero-range guard skips every candle — and at every
index where the Bollinger bands are defined (window 20, `k = 2`) the
rolling standard deviation is `0`, so the upper, middle, and lower bands
all equal the SMA value, the flat price itself. -/
theorem C4_flat_doji_skipped_bollinger_collapses :
    ∀ c v : ℚ,
      (detect_doji_pattern (flatCandleSeries c v)).occurrences = [] ∧
      ∀ i : ℕ, i < 60 → 19 ≤ i →
        smaOpt ((flatCandleSeries c v).map Candle.close) 20 i = some c ∧
        bbUpperOpt ((flatCandleSeries c v).map Candle.close) 20 2 i =
          some ((c : ℚ) : ℝ) ∧
        bbLowerOpt ((flatCandleSeries c v).map Candle.close) 20 2 i =
          some ((c : ℚ) : ℝ) := by
  intro c v
  refine ⟨flat_doji_empty c v, ?_⟩
  intro i h1 h2
  have hm := flat_sma c v i h1 h2
  have hv := flat_rvar c v i h1 h2
  refine ⟨hm, ?_, ?_⟩ <;>
    simp [bbUpperOpt, bbLowerOpt, hm, hv, Real.sqrt_zero]

/-- C4 witness: the amended theorem applied to the flat series at price
100 and index 19, the first index where all three bands are defined. -/
theorem C4_flat_witness :
    (detect_doji_pattern flatSeries).occurrences = [] ∧
    bbUpperOpt (flatSeries.map Candle.close) 20 2 19 = some ((100 : ℚ) : ℝ) ∧
    bbLowerOpt (flatSeries.map Candle.close) 20 2 19 = some ((100 : ℚ) : ℝ) :=
  ⟨(C4_flat_doji_skipped_bollinger_collapses 100 1000).1,
   ((C4_flat_doji_skipped_bollinger_collapses 100 1000).2 19
     (by norm_num) (by norm_num)).2.1,
   ((C4_flat_doji_skipped_bollinger_collapses 100 1000).2 19
     (by norm_num) (by norm_num)).2.2⟩

/-- C6 counterexample.  On `engulfZeroBodyExample` the previous candle's
body length is zero, yet `_detect_engulfing_pattern` does *not* skip the
comparison: the engulfing condition matches, an occurrence is emitted at
index 1, and `curr_body / prev_body` is evaluated with a zero denominator
(numpy float64: `+inf`, so the confidence becomes `min(0.9, inf) = 0.9`). -/
theorem C6_engulfing_zero_prev_body_counterexample :
    (detect_engulfing_pattern engulfZeroBodyExample).occurrences =
      [⟨"Bullish Engulfing", "bullish", 9/10, 1⟩] ∧
    |(engulfZeroBodyExample.getD 0 default).close -
      (engulfZeroBodyExample.getD 0 default).open_| = 0 :=
  of_decide_eq_true (by with_unfolding_all rfl)

/-- C6 amended.  The skip happens only for Harami: its explicit
`prev_body_length > 0` guard means no Harami occurrence is ever emitted
at an index whose previous candle has zero body length (and the division
in its condition sits behind that short-circuited guard).  Engulfing has
no such guard: on `engulfZeroBodyExample` it emits an occurrence at index
1 with the previous body zero, evaluating the confidence division on a
zero denominator (IEEE `+inf`, confidence `0.9`). -/
theorem C6_zero_prev_body_skip :
    (∀ (candles : List Candle) (p : Pattern),
        p ∈ (detect_harami_pattern candles).occurrences →
        0 < |(candles.getD (p.candle_index - 1) default).close -
              (candles.getD (p.candle_index - 1) default).open_|) ∧
    (detect_engulfing_pattern engulfZeroBodyExample).occurrences =
      [⟨"Bullish Engulfing", "bullish", 9/10, 1⟩] := by
  constructor
  · intro candles p hp
    simp only [detect_harami_pattern, mkPatternResult, List.mem_filterMap] at hp
    obtain ⟨i, -, hf⟩ := hp
    split_ifs at hf with hc hb
    all_goals
      obtain ⟨-, -, h3, -⟩ := hc
      injection hf with hf
      subst hf
      exact h3
  · exact of_decide_eq_true (by with_unfolding_all rfl)

/-- C6 witness: the Harami half of the theorem applied to the concrete
occurrence that `haramiExample` produces at index 1; its previous candle
has body length `10 > 0`. -/
theorem C6_zero_prev_body_skip_witness :
    0 < |(haramiExample.getD 0 default).close -
          (haramiExample.getD 0 default).open_| :=
  C6_zero_prev_body_skip.1 haramiExample ⟨"Harami", "bearish", 1/2, 1⟩
    (of_decide_eq_true (by with_unfolding_all rfl))

/-- Confidence bound for Hammer occurrences: the matched ratios force
`0.5 + (lower_shadow_ratio − body_ratio) > 0.8`, and the `min` caps at
`0.9`. -/
theorem hammer_confidence_bounds (candles : List Candle) (p : Pattern)
    (hp : p ∈ (detect_hammer_pattern candles).occurrences) :
    0 ≤ p.confidence ∧ p.confidence ≤ 9/10 := by
  simp only [detect_hammer_pattern, mkPatternResult, List.mem_filterMap] at hp
  obtain ⟨i, -, hf⟩ := hp
  split_ifs at hf with h0 hc
  obtain ⟨h1, h2, -⟩ := hc
  injection hf with hf
  subst hf
  exact ⟨le_min (by norm_num) (by linarith), min_le_left _ _⟩

/-- Confidence bound for Doji occurrences: `body_ratio < 0.05` forces
`0.8 − 10·body_ratio > 0.3`. -/
theorem doji_confidence_bounds (candles : List Candle) (p : Pattern)
    (hp : p ∈ (detect_doji_pattern candles).occurrences) :
    0 ≤ p.confidence ∧ p.confidence ≤ 9/10 := by
  simp only [detect_doji_pattern, mkPatternResult, List.mem_filterMap] at hp
  obtain ⟨i, -, hf⟩ := hp
  split_ifs at hf with h0 hc
  injection hf with hf
  subst hf
  exact ⟨le_min (by norm_num) (by linarith), min_le_left _ _⟩

/-- Confidence bound for Marubozu occurrences: `body_ratio > 0.9 > 0`. -/
theorem marubozu_confidence_bounds (candles : List Candle) (p : Pattern)
    (hp : p ∈ (detect_marubozu_pattern candles).occurrences) :
    0 ≤ p.confidence ∧ p.confidence ≤ 9/10 := by
  simp only [detect_marubozu_pattern, mkPatternResult, List.mem_filterMap] at hp
  obtain ⟨i, -, hf⟩ := hp
  split_ifs at hf with h0 hc hb
  all_goals
    obtain ⟨h1, -⟩ := hc
    injection hf with hf
    subst hf
    exact ⟨le_min (by norm_num) (by linarith), min_le_left _ _⟩

/-- The engulfing confidence is always within `[0, 0.9]`: the zero
previous-body branch gives exactly `0.9`, and otherwise the body ratio is
nonnegative. -/
theorem engulfing_confidence_formula_bounds (currBody prevBody : ℚ)
    (hc : 0 ≤ currBody) (hpb : 0 ≤ prevBody) :
    0 ≤ engulfingConfidence currBody prevBody ∧
      engulfingConfidence currBody prevBody ≤ 9/10 := by
  unfold engulfingConfidence
  split_ifs with h0
  · norm_num
  · have hdiv : 0 ≤ currBody / prevBody := div_nonneg hc hpb
    exact ⟨le_min (by norm_num) (by linarith), min_le_left _ _⟩

/-- Confidence bound for Engulfing occurrences (both directions). -/
theorem engulfing_confidence_bounds (candles : List Candle) (p : Pattern)
    (hp : p ∈ (detect_engulfing_pattern candles).occurrences) :
    0 ≤ p.confidence ∧ p.confidence ≤ 9/10 := by
  simp only [detect_engulfing_pattern, mkPatternResult, List.mem_filterMap] at hp
  obtain ⟨i, -, hf⟩ := hp
  split_ifs at hf with hc hb
  all_goals
    injection hf with hf
    subst hf
    exact engulfing_confidence_formula_bounds _ _ (abs_nonneg _) (abs_nonneg _)

/-- Confidence bound for Harami occurrences: the matched ratio satisfies
`curr_body / prev_body < 0.5`, so `0.7 − ratio > 0.2`. -/
theorem harami_confidence_bounds (candles : List Candle) (p : Pattern)
    (hp : p ∈ (detect_harami_pattern candles).occurrences) :
    0 ≤ p.confidence ∧ p.confidence ≤ 9/10 := by
  simp only [detect_harami_pattern, mkPatternResult, List.mem_filterMap] at hp
  obtain ⟨i, -, hf⟩ := hp
  split_ifs at hf with hc hb
  all_goals
    obtain ⟨-, -, -, h4⟩ := hc
    injection hf with hf
    subst hf
    exact ⟨le_min (by norm_num) (by linarith), min_le_left _ _⟩

/-- Confidence bound for Morning Star occurrences: the middle body is
under half of the first (bearish, hence positive) body, so the
body-ratio term exceeds `0.5` and the sum is positive. -/
theorem morning_star_confidence_bounds (candles : List Candle) (p : Pattern)
    (hp : p ∈ (detect_morning_star_pattern candles).occurrences) :
    0 ≤ p.confidence ∧ p.confidence ≤ 9/10 := by
  simp only [detect_morning_star_pattern, mkPatternResult, List.mem_filterMap] at hp
  obtain ⟨i, -, hf⟩ := hp
  split_ifs at hf with hc hg
  all_goals
    obtain ⟨h1, -, h3, -, -⟩ := hc
    injection hf with hf
    subst hf
    refine ⟨le_min (by norm_num) ?_, min_le_left _ _⟩
    have hc1b : 0 < |(candles.getD (i - 2) default).close -
        (candles.getD (i - 2) default).open_| :=
      abs_pos.mpr (sub_ne_zero.mpr (ne_of_lt h1))
    have hmax : (0:ℚ) < |(candles.getD (i - 2) default).close -
          (candles.getD (i - 2) default).open_| ⊔
        |(candles.getD i default).close - (candles.getD i default).open_| :=
      lt_of_lt_of_le hc1b (le_max_left _ _)
    have hratio : |(candles.getD (i - 1) default).close -
          (candles.getD (i - 1) default).open_| /
        (|(candles.getD (i - 2) default).close -
            (candles.getD (i - 2) default).open_| ⊔
          |(candles.getD i default).close - (candles.getD i default).open_|) < 1/2 := by
      rw [div_lt_iff₀ hmax]
      have := le_max_left
        |(candles.getD (i - 2) default).close - (candles.getD (i - 2) default).open_|
        |(candles.getD i default).close - (candles.getD i default).open_|
      linarith
    linarith

/-- C9.  Every occurrence emitted by any of the six pattern detectors has
confidence in the closed interval `[0, 0.9]`. -/
theorem C9_pattern_confidence_in_range :
    ∀ (candles : List Candle) (p : Pattern),
      p ∈ allPatternOccurrences candles →
      0 ≤ p.confidence ∧ p.confidence ≤ 9/10 := by
  intro candles p hp
  simp only [allPatternOccurrences, List.mem_append] at hp
  rcases hp with ((((h | h) | h) | h) | h) | h
  · exact hammer_confidence_bounds candles p h
  · exact doji_confidence_bounds candles p h
  · exact marubozu_confidence_bounds candles p h
  · exact engulfing_confidence_bounds candles p h
  · exact harami_confidence_bounds candles p h
  · exact morning_star_confidence_bounds candles p h

/-- C9 witness: the bound theorem applied to the concrete Doji occurrence
of `dojiExample`, whose confidence is `0.8`. -/
theorem C9_pattern_confidence_in_range_witness :
    0 ≤ (4/5 : ℚ) ∧ (4/5 : ℚ) ≤ 9/10 :=
  C9_pattern_confidence_in_range dojiExample ⟨"Doji", "neutral", 4/5, 0⟩
    (of_decide_eq_true (by with_unfolding_all rfl))

/-- The scan resolves exactly through the first within-0.1% match. -/
theorem dedupeScan_spec (l : Level) (u : List Level) :
    (firstWithin l u = none → dedupeScan l u = none) ∧
    (∀ e, firstWithin l u = some e →
      dedupeScan l u =
        some (if e.strength < l.strength then eraseFirstWithin l u ++ [l]
              else u)) := by
  induction u with
  | nil => exact ⟨fun _ => rfl, fun e he => by simp [firstWithin] at he⟩
  | cons e0 rest ih =>
      constructor
      · intro h
        simp only [firstWithin] at h
        split_ifs at h with hw
        rw [dedupeScan, if_neg hw, (ih.1 h)]
        rfl
      · intro e he
        simp only [firstWithin] at he
        split_ifs at he with hw
        · injection he with he
          subst he
          rw [dedupeScan, if_pos hw]
          simp only [eraseFirstWithin, if_pos hw]
        · rw [dedupeScan, if_neg hw, ih.2 e he]
          simp only [Option.map_some, eraseFirstWithin, if_neg hw]
          split_ifs <;> rfl

/-- C3 amended.  The dedupe stage obeys the *single-comparison* rule: an
incoming level that matches no retained level (within 0.1% of the
retained level's price) is appended; one that matches is compared only
against its *first* match — the strictly stronger of the two survives
(ties keep the incumbent), the replacement being appended at the end of
the list.  (The global pairwise-0.1% separation claimed for the final
list does not hold — see the counterexample — because a replacement is
never re-checked against the remaining retained levels.) -/
theorem C3_dedupe_single_comparison :
    ∀ (unique : List Level) (l : Level),
      (firstWithin l unique = none → dedupeStep unique l = unique ++ [l]) ∧
      (∀ e, firstWithin l unique = some e →
        dedupeStep unique l =
          if e.strength < l.strength then eraseFirstWithin l unique ++ [l]
          else unique) := by
  intro unique l
  constructor
  · intro h
    unfold dedupeStep
    rw [(dedupeScan_spec l unique).1 h]
  · intro e he
    unfold dedupeStep
    rw [(dedupeScan_spec l unique).2 e he]

/-- C3 counterexample.  Feeding the three candidates through the dedupe
stage retains `dupLevelB` and `dupLevelC`, two distinct levels whose
prices are within 0.1% of each other (in both relative senses): the
replacement of `dupLevelA` by `dupLevelC` is not re-checked against
`dupLevelB`. -/
theorem C3_dedupe_counterexample :
    dedupeLevels [dupLevelA, dupLevelB, dupLevelC] = [dupLevelB, dupLevelC] ∧
    dupLevelB ≠ dupLevelC ∧
    |dupLevelC.price - dupLevelB.price| / dupLevelB.price * 100 < 1/10 ∧
    |dupLevelB.price - dupLevelC.price| / dupLevelC.price * 100 < 1/10 := by
  refine ⟨?_, ?_, ?_, ?_⟩ <;>
    norm_num [dedupeLevels, dedupeStep, dedupeScan,
      dupLevelA, dupLevelB, dupLevelC, abs_of_nonneg, abs_of_nonpos]

/-- C3 witness: the single-comparison rule applied to the concrete third
step of the counterexample — `dupLevelC` meets `dupLevelA` as its first
match in `[dupLevelA, dupLevelB]` and, being strictly stronger, replaces
it. -/
theorem C3_dedupe_single_comparison_witness :
    dedupeStep [dupLevelA, dupLevelB] dupLevelC = [dupLevelB, dupLevelC] := by
  have h := (C3_dedupe_single_comparison [dupLevelA, dupLevelB] dupLevelC).2
    dupLevelA (by norm_num [firstWithin, dupLevelA, dupLevelC, abs_of_nonneg])
  rw [h]
  norm_num [eraseFirstWithin, dupLevelA, dupLevelB, dupLevelC, abs_of_nonneg]

/-- Insertion preserves the underlying elements. -/
theorem mem_insertByStrengthDesc (x l : Level) (xs : List Level)
    (h : x ∈ insertByStrengthDesc l xs) : x = l ∨ x ∈ xs := by
  induction xs with
  | nil => simpa [insertByStrengthDesc] using h
  | cons e rest ih =>
      rw [insertByStrengthDesc] at h
      split_ifs at h
      · simpa using h
      · rcases List.mem_cons.mp h with h1 | h1
        · exact Or.inr (by simp [h1])
        · rcases ih h1 with h2 | h2
          · exact Or.inl h2
          · exact Or.inr (List.mem_cons_of_mem _ h2)

/-- Sorting preserves the underlying elements. -/
theorem mem_sortByStrengthDesc (x : Level) (xs : List Level)
    (h : x ∈ sortByStrengthDesc xs) : x ∈ xs := by
  induction xs with
  | nil => simp [sortByStrengthDesc] at h
  | cons e rest ih =>
      rcases mem_insertByStrengthDesc x e (sortByStrengthDesc rest) h with h1 | h1
      · simp [h1]
      · exact List.mem_cons_of_mem _ (ih h1)

/-- Python's `max(..., key=f)` returns one of its inputs. -/
theorem pyMaxBy_mem (f : Level → ℚ) (x : Level) (ys : List Level) :
    pyMaxBy f x ys = x ∨ pyMaxBy f x ys ∈ ys := by
  induction ys generalizing x with
  | nil => exact Or.inl rfl
  | cons y ys ih =>
      rw [pyMaxBy]
      split_ifs with hc
      · rcases ih y with h | h
        · exact Or.inr (by simp [h])
        · exact Or.inr (List.mem_cons_of_mem _ h)
      · rcases ih x with h | h
        · exact Or.inl h
        · exact Or.inr (List.mem_cons_of_mem _ h)

/-- Python's `min(..., key=f)` returns one of its inputs. -/
theorem pyMinBy_mem (f : Level → ℚ) (x : Level) (ys : List Level) :
    pyMinBy f x ys = x ∨ pyMinBy f x ys ∈ ys := by
  induction ys generalizing x with
  | nil => exact Or.inl rfl
  | cons y ys ih =>
      rw [pyMinBy]
      split_ifs with hc
      · rcases ih y with h | h
        · exact Or.inr (by simp [h])
        · exact Or.inr (List.mem_cons_of_mem _ h)
      · rcases ih x with h | h
        · exact Or.inl h
        · exact Or.inr (List.mem_cons_of_mem _ h)

/-- The nearest level `below` lies strictly below the current price. -/
theorem find_nearest_below_lt (levels : List Level) (currentPrice : ℚ)
    (s : Level) (h : find_nearest_level levels currentPrice "below" = some s) :
    s.price < currentPrice := by
  unfold find_nearest_level at h
  by_cases hemp : levels.isEmpty = true
  · rw [if_pos hemp] at h; cases h
  · rw [if_neg hemp, if_pos rfl] at h
    rcases hf : levels.filter (fun l => decide (l.price < currentPrice)) with - | ⟨v, vs⟩ <;>
      rw [hf] at h
    · cases h
    · injection h with h
      have hmem : s ∈ levels.filter (fun l => decide (l.price < currentPrice)) := by
        rw [hf]
        rcases pyMaxBy_mem Level.price v vs with h1 | h1
        · rw [← h, h1]; exact List.mem_cons_self _ _
        · rw [← h]; exact List.mem_cons_of_mem _ h1
      exact of_decide_eq_true (List.mem_filter.mp hmem).2

/-- The nearest level `above` lies strictly above the current price. -/
theorem find_nearest_above_gt (levels : List Level) (currentPrice : ℚ)
    (r : Level) (h : find_nearest_level levels currentPrice "above" = some r) :
    currentPrice < r.price := by
  unfold find_nearest_level at h
  by_cases hemp : levels.isEmpty = true
  · rw [if_pos hemp] at h; cases h
  · rw [if_neg hemp, if_neg (by decide), if_pos rfl] at h
    rcases hf : levels.filter (fun l => decide (currentPrice < l.price)) with - | ⟨v, vs⟩ <;>
      rw [hf] at h
    · cases h
    · injection h with h
      have hmem : r ∈ levels.filter (fun l => decide (currentPrice < l.price)) := by
        rw [hf]
        rcases pyMinBy_mem Level.price v vs with h1 | h1
        · rw [← h, h1]; exact List.mem_cons_self _ _
        · rw [← h]; exact List.mem_cons_of_mem _ h1
      exact of_decide_eq_true (List.mem_filter.mp hmem).2

/-- C8.  In every `SupportResistanceResult` (for any candidate level list
the detection stages could supply), each retained support level carries
`level_type = "support"` and a price strictly below the current close,
each retained resistance level carries `level_type = "resistance"` and a
price at or above it (the reassignment ignores any stage-provided label),
and the nearest support (resp. resistance), when present, lies strictly
below (resp. above) the current price. -/
theorem C8_classification_and_nearest :
    ∀ (allLevels : List Level) (closes : List ℚ),
      (∀ l ∈ (calculate_support_resistance allLevels closes).support_levels,
          l.level_type = "support" ∧
          l.price < (calculate_support_resistance allLevels closes).current_price) ∧
      (∀ l ∈ (calculate_support_resistance allLevels closes).resistance_levels,
          l.level_type = "resistance" ∧
          (calculate_support_resistance allLevels closes).current_price ≤ l.price) ∧
      (∀ s, (calculate_support_resistance allLevels closes).nearest_support = some s →
          s.price < (calculate_support_resistance allLevels closes).current_price) ∧
      (∀ r, (calculate_support_resistance allLevels closes).nearest_resistance = some r →
          (calculate_support_resistance allLevels closes).current_price < r.price) := by
  intro allLevels closes
  simp only [calculate_support_resistance, classify_and_rank_levels]
  refine ⟨?_, ?_, ?_, ?_⟩
  · intro l hl
    have h1 := mem_sortByStrengthDesc _ _ (List.take_subset _ _ hl)
    obtain ⟨hmem, hdec⟩ := List.mem_filter.mp h1
    have hlt : l.price < closes.getLastD 0 := of_decide_eq_true hdec
    refine ⟨?_, hlt⟩
    obtain ⟨l0, -, hrecl⟩ := List.mem_map.mp hmem
    have hprice : l.price = l0.price := by rw [← hrecl]; rfl
    rw [← hrecl]
    simp only [reclassifyLevel]
    rw [if_pos (hprice ▸ hlt)]
  · intro l hl
    have h1 := mem_sortByStrengthDesc _ _ (List.take_subset _ _ hl)
    obtain ⟨hmem, hdec⟩ := List.mem_filter.mp h1
    have hge : ¬ l.price < closes.getLastD 0 := of_decide_eq_true hdec
    refine ⟨?_, le_of_not_lt hge⟩
    obtain ⟨l0, -, hrecl⟩ := List.mem_map.mp hmem
    have hprice : l.price = l0.price := by rw [← hrecl]; rfl
    rw [← hrecl]
    simp only [reclassifyLevel]
    rw [if_neg (hprice ▸ hge)]
  · intro s hsome
    exact find_nearest_below_lt _ _ s hsome
  · intro r hsome
    exact find_nearest_above_gt _ _ r hsome

/-- C8 witness: on `c8Levels` (whose stage labels are inverted on
purpose) the level at 90 is retained as a support with price below the
current price 100, and the nearest resistance sits strictly above it. -/
theorem C8_classification_and_nearest_witness :
    ((⟨90, "support", 5, 1, 10⟩ : Level).level_type = "support" ∧
      (⟨90, "support", 5, 1, 10⟩ : Level).price <
        (calculate_support_resistance c8Levels c8Closes).current_price) ∧
    (calculate_support_resistance c8Levels c8Closes).current_price <
      (⟨110, "resistance", 3, 1, 10⟩ : Level).price :=
  ⟨(C8_classification_and_nearest c8Levels c8Closes).1 _
      (by norm_num [calculate_support_resistance, classify_and_rank_levels,
        dedupeLevels, dedupeStep, dedupeScan, reclassifyLevel,
        sortByStrengthDesc, insertByStrengthDesc,
        c8Levels, c8Closes, abs_of_nonneg, abs_of_nonpos]),
   (C8_classification_and_nearest c8Levels c8Closes).2.2.2 _
      (by
        norm_num [calculate_support_resistance, classify_and_rank_levels,
          dedupeLevels, dedupeStep, dedupeScan, reclassifyLevel,
          sortByStrengthDesc, insertByStrengthDesc, find_nearest_level,
          pyMinBy, c8Levels, c8Closes, abs_of_nonneg, abs_of_nonpos]
        decide)⟩

/-- When the nearest resistance (as the pipeline supplies it) lies
strictly above the current price, the `BREAKOUT` branch of the resistance
block is dead: the block yields `APPROACHING_RESISTANCE` exactly when the
level is near and the trailing change exceeds 1%, else `NEUTRAL`. -/
theorem resistanceSignalPart_spec (currentPrice priceChange : ℚ)
    (nr : Option Level) (hr : ∀ r, nr = some r → currentPrice < r.price) :
    resistanceSignalPart currentPrice priceChange nr =
      if nearLevel currentPrice nr ∧ 1 < priceChange then "APPROACHING_RESISTANCE"
      else "NEUTRAL" := by
  cases nr with
  | none => simp [resistanceSignalPart, nearLevel]
  | some r =>
      have hgt := hr r rfl
      rw [resistanceSignalPart]
      by_cases hnear : |currentPrice - r.price| / currentPrice * 100 ≤ 2
      · rw [if_pos hnear]
        by_cases hch : 1 < priceChange
        · rw [if_pos hch, if_pos ⟨by simp [nearLevel, hnear], hch⟩]
        · rw [if_neg hch, if_neg (lt_asymm hgt), if_neg (by simp [hch])]
      · rw [if_neg hnear, if_neg (by simp [nearLevel, hnear])]

/-- With pipeline-supplied nearest levels (support strictly below, and
resistance strictly above, the current price) the whole signal function
reduces to the two reachable branches plus `NEUTRAL`. -/
theorem generate_signal_cases (closes : List ℚ) (currentPrice : ℚ)
    (ns nr : Option Level)
    (hs : ∀ s, ns = some s → s.price < currentPrice)
    (hr : ∀ r, nr = some r → currentPrice < r.price)
    (h5 : 5 ≤ closes.length) :
    generate_price_action_signal closes currentPrice ns nr =
      if nearLevel currentPrice ns ∧ trailingChange closes < -1 then
        "APPROACHING_SUPPORT"
      else if nearLevel currentPrice nr ∧ 1 < trailingChange closes then
        "APPROACHING_RESISTANCE"
      else "NEUTRAL" := by
  cases ns with
  | none =>
      simp only [generate_price_action_signal]
      rw [if_neg (by omega : ¬ closes.length < 5),
        resistanceSignalPart_spec _ _ _ hr,
        if_neg (show ¬(nearLevel currentPrice none = true ∧
          trailingChange closes < -1) from by simp [nearLevel])]
  | some s =>
      have hlt := hs s rfl
      simp only [generate_price_action_signal]
      rw [if_neg (by omega : ¬ closes.length < 5)]
      by_cases hnear : |currentPrice - s.price| / currentPrice * 100 ≤ 2
      · rw [if_pos hnear]
        by_cases hch : trailingChange closes < -1
        · rw [if_pos hch, if_pos ⟨by simp [nearLevel, hnear], hch⟩]
        · rw [if_neg hch, if_neg (lt_asymm hlt),
            resistanceSignalPart_spec _ _ _ hr,
            if_neg (show ¬(nearLevel currentPrice (some s) = true ∧
              trailingChange closes < -1) from by simp [hch])]
      · rw [if_neg hnear, resistanceSignalPart_spec _ _ _ hr,
          if_neg (show ¬(nearLevel currentPrice (some s) = true ∧
            trailingChange closes < -1) from by simp [nearLevel, hnear])]

/-- C2 counterexample (negation of the claim's reachability conjunct).
No input whatsoever — no candidate level list and no close series — makes
the pipeline produce `BREAKDOWN` or `BREAKOUT`: the nearest support is
strictly below the current price and the nearest resistance strictly
above it (`_find_nearest_level` filters strictly), so the `elif` branches
that return them can never fire. -/
theorem C2_breakdown_breakout_unreachable :
    ¬ ∃ (allLevels : List Level) (closes : List ℚ),
        (calculate_support_resistance allLevels closes).price_action_signal =
          "BREAKDOWN" ∨
        (calculate_support_resistance allLevels closes).price_action_signal =
          "BREAKOUT" := by
  rintro ⟨allLevels, closes, hcase⟩
  by_cases h5 : closes.length < 5
  · have hneut : (calculate_support_resistance allLevels closes).price_action_signal =
        "NEUTRAL" := by
      simp only [calculate_support_resistance, generate_price_action_signal]
      rw [if_pos h5]
    rw [hneut] at hcase
    rcases hcase with h | h <;> exact absurd h (by decide)
  · have hgen := generate_signal_cases closes (closes.getLastD 0)
      (find_nearest_level
        (classify_and_rank_levels allLevels (closes.getLastD 0)).1
        (closes.getLastD 0) "below")
      (find_nearest_level
        (classify_and_rank_levels allLevels (closes.getLastD 0)).2
        (closes.getLastD 0) "above")
      (fun s hsome => find_nearest_below_lt _ _ s hsome)
      (fun r hsome => find_nearest_above_gt _ _ r hsome)
      (le_of_not_lt h5)
    have hsig : (calculate_support_resistance allLevels closes).price_action_signal =
        generate_price_action_signal closes (closes.getLastD 0)
          (find_nearest_level
            (classify_and_rank_levels allLevels (closes.getLastD 0)).1
            (closes.getLastD 0) "below")
          (find_nearest_level
            (classify_and_rank_levels allLevels (closes.getLastD 0)).2
            (closes.getLastD 0) "above") := rfl
    rw [hsig, hgen] at hcase
    split_ifs at hcase <;> rcases hcase with h | h <;> exact absurd h (by decide)

/-- C2 amended.  For every candidate level list and every close series of
length at least 5, the price-action signal follows the claimed cascade
with the two dead branches removed: `APPROACHING_SUPPORT` when within 2%
of the nearest support and falling by more than 1%, otherwise
`APPROACHING_RESISTANCE` when within 2% of the nearest resistance and
rising by more than 1%, otherwise `NEUTRAL`; `BREAKDOWN` and `BREAKOUT`
are never produced (see the counterexample theorem). -/
theorem C2_price_action_cascade :
    ∀ (allLevels : List Level) (closes : List ℚ), 5 ≤ closes.length →
      (calculate_support_resistance allLevels closes).price_action_signal =
        if nearLevel (closes.getLastD 0)
              ((calculate_support_resistance allLevels closes).nearest_support) ∧
            trailingChange closes < -1 then "APPROACHING_SUPPORT"
        else if nearLevel (closes.getLastD 0)
              ((calculate_support_resistance allLevels closes).nearest_resistance) ∧
            1 < trailingChange closes then "APPROACHING_RESISTANCE"
        else "NEUTRAL" := by
  intro allLevels closes h5
  exact generate_signal_cases closes (closes.getLastD 0) _ _
    (fun s hsome => find_nearest_below_lt _ _ s hsome)
    (fun r hsome => find_nearest_above_gt _ _ r hsome) h5

/-- C2 witness: the cascade theorem applied to a flat five-close series
near a support — neither the falling nor the rising branch fires, so the
signal is `NEUTRAL`. -/
theorem C2_price_action_cascade_witness :
    (calculate_support_resistance c2Levels c2Closes).price_action_signal =
      "NEUTRAL" := by
  rw [C2_price_action_cascade c2Levels c2Closes (by norm_num [c2Closes])]
  norm_num [trailingChange, c2Closes]

/-- The scan emits one value per remaining input plus the seed. -/
theorem emaScan_length (a seed : ℚ) (l : List ℚ) :
    (emaScan a seed l).length = l.length + 1 := by
  induction l generalizing seed with
  | nil => rfl
  | cons x rest ih => simp [emaScan, ih]

/-- The EMA is defined on the whole post-warm-up range. -/
theorem emaOpt_isSome (xs : List ℚ) (p i : ℕ)
    (h1 : p ≤ i + 1) (h2 : i < xs.length) (h3 : 1 ≤ p) :
    ∃ v, emaOpt xs p i = some v := by
  unfold emaOpt
  rw [if_pos ⟨h1, h2, h3⟩]
  have hlen : i + 1 - p <
      (emaScan (2 / ((p : ℚ) + 1)) ((xs.take p).sum / p) (xs.drop p)).length := by
    rw [emaScan_length, List.length_drop]
    omega
  exact ⟨_, List.get?_eq_some.mpr ⟨hlen, rfl⟩⟩

/-- Entries of a tabulated array below the length bound. -/
theorem getD_map_range (n : ℕ) (f : ℕ → ℚ) (i : ℕ) (h : i < n) :
    ((List.range n).map f).getD i 0 = f i := by
  rw [List.getD_eq_getElem?_getD, List.getElem?_map, List.getElem?_range h]
  rfl

/-- C5 amended.  On the `fillna(0)` output arrays the identity
`histogram[i] = macd_line[i] − signal_line[i]` holds at every index
where the signal line is defined (`i ≥ 33`) and at every index where the
MACD line itself is undefined (`i < 25`, all three entries `0`).  It can
fail only in the gap `25 ≤ i < 33`, where the MACD line is defined but
the signal line's zero-filled entry misstates the subtraction — see the
counterexample. -/
theorem C5_histogram_identity_outside_gap :
    ∀ (candles : List Candle) (i : ℕ), i < candles.length → (i < 25 ∨ 33 ≤ i) →
      (calculate_macd candles).histogram.getD i 0 =
        (calculate_macd candles).macd_line.getD i 0 -
        (calculate_macd candles).signal_line.getD i 0 := by
  intro candles i hi hcase
  have hn : (candles.map Candle.close).length = candles.length := List.length_map _ _
  simp only [calculate_macd]
  rw [getD_map_range _ _ i (by rw [hn]; exact hi),
    getD_map_range _ _ i (by rw [hn]; exact hi),
    getD_map_range _ _ i (by rw [hn]; exact hi)]
  rcases hcase with hlt | hge
  · have h26 : emaOpt (candles.map Candle.close) 26 i = none := by
      unfold emaOpt
      rw [if_neg (by omega)]
    have hm : macdOpt (candles.map Candle.close) i = none := by
      unfold macdOpt
      rw [h26]
      cases emaOpt (candles.map Candle.close) 12 i <;> rfl
    have hsig : signalOpt (candles.map Candle.close) i = none := by
      unfold signalOpt
      rw [if_neg (by omega)]
    have hh : histOpt (candles.map Candle.close) i = none := by
      unfold histOpt
      rw [hm]
    rw [hm, hsig, hh]
    norm_num
  · obtain ⟨f, hf⟩ := emaOpt_isSome (candles.map Candle.close) 12 i
      (by omega) (by omega) (by omega)
    obtain ⟨s, hs⟩ := emaOpt_isSome (candles.map Candle.close) 26 i
      (by omega) (by omega) (by omega)
    have hm : macdOpt (candles.map Candle.close) i = some (f - s) := by
      unfold macdOpt
      rw [hf, hs]
    have hmdl : (macdDefList (candles.map Candle.close)).length =
        candles.length - 25 := by
      simp [macdDefList, hn]
    obtain ⟨g, hg⟩ := emaOpt_isSome (macdDefList (candles.map Candle.close)) 9
      (i - 25) (by omega) (by omega) (by omega)
    have hsig : signalOpt (candles.map Candle.close) i = some g := by
      unfold signalOpt
      rw [if_pos (by omega), hg]
    have hh : histOpt (candles.map Candle.close) i = some (f - s - g) := by
      unfold histOpt
      rw [hm, hsig]
    rw [hm, hsig, hh]
    norm_num

set_option maxRecDepth 400000 in
/-- C5 counterexample.  On the accepted 50-candle rising series, at index
25 the MACD line is defined and nonzero but the signal line is still in
its warm-up, so the serialized arrays hold `histogram[25] = 0`,
`signal_line[25] = 0`, and a nonzero `macd_line[25]`: the claimed
identity fails on the output arrays at that index. -/
theorem C5_histogram_identity_counterexample :
    (calculate_macd risingSeries).histogram.getD 25 0 ≠
      (calculate_macd risingSeries).macd_line.getD 25 0 -
      (calculate_macd risingSeries).signal_line.getD 25 0 :=
  of_decide_eq_true (by with_unfolding_all rfl)

set_option maxRecDepth 400000 in
/-- C5 witness: the amended identity applied at index 40 of the rising
series, where all three values are defined. -/
theorem C5_histogram_identity_witness :
    (calculate_macd risingSeries).histogram.getD 40 0 =
      (calculate_macd risingSeries).macd_line.getD 40 0 -
      (calculate_macd risingSeries).signal_line.getD 40 0 :=
  C5_histogram_identity_outside_gap risingSeries 40
    (by rw [risingSeries, List.length_map, List.length_range]; omega)
    (Or.inr (by norm_num))

/-- One timeframe's indicator entries shift the tally accumulator by the
three per-predicate counts. -/
theorem tally_inner_step (es : List (String × Option String)) :
    ∀ acc : ℕ × ℕ × ℕ,
      es.foldl (fun acc2 entry =>
        let signal := entry.2.getD "NEUTRAL"
        if pyIn "BULLISH" signal then (acc2.1 + 1, acc2.2.1, acc2.2.2)
        else if pyIn "BEARISH" signal then (acc2.1, acc2.2.1 + 1, acc2.2.2)
        else (acc2.1, acc2.2.1, acc2.2.2 + 1)) acc =
      (acc.1 + es.countP entryBullish, acc.2.1 + es.countP entryBearish,
        acc.2.2 + es.countP entryNeutral) := by
  induction es with
  | nil => intro acc; simp
  | cons e rest ih =>
      intro acc
      rw [List.foldl_cons, ih]
      by_cases hb : pyIn "BULLISH" (e.2.getD "NEUTRAL")
      · simp only [List.countP_cons, entryBullish, entryBearish, entryNeutral, hb]
        simp [hb]
        omega
      · by_cases hbe : pyIn "BEARISH" (e.2.getD "NEUTRAL")
        · simp only [List.countP_cons, entryBullish, entryBearish, entryNeutral]
          simp [hb, hbe]
          omega
        · simp only [List.countP_cons, entryBullish, entryBearish, entryNeutral]
          simp [hb, hbe]
          omega

/-- The whole tally equals the per-predicate counts. -/
theorem tallySignals_eq_counts (tfs : List TimeframeAnalysis) :
    tallySignals tfs = (bullishCount tfs, bearishCount tfs, neutralCount tfs) := by
  unfold tallySignals bullishCount bearishCount neutralCount
  induction tfs using List.reverseRecOn with
  | nil => rfl
  | append_singleton rest tf ih =>
      rw [List.foldl_append, ih, List.foldl_cons, List.foldl_nil, tally_inner_step]
      simp

/-- C10.  The summary counts an indicator entry as bullish exactly when
its signal string contains `"BULLISH"`, as bearish exactly when it does
not contain `"BULLISH"` but contains `"BEARISH"`, and as neutral
otherwise — in particular `"OVERBOUGHT"`, `"OVERSOLD"`, and a missing
`'signal'` key (which reads as `"NEUTRAL"`) all land in the neutral
bucket — and the three percentages are computed over the total count
across all supplied timeframes. -/
theorem C10_summary_signal_percentages :
    ∀ tfs : List TimeframeAnalysis,
      tallySignals tfs = (bullishCount tfs, bearishCount tfs, neutralCount tfs) ∧
      (generate_summary tfs).overall_signals =
        (if 0 < bullishCount tfs + bearishCount tfs + neutralCount tfs then
          some
            (pyRound2 ((bullishCount tfs : ℚ) /
              (bullishCount tfs + bearishCount tfs + neutralCount tfs) * 100),
             pyRound2 ((bearishCount tfs : ℚ) /
              (bullishCount tfs + bearishCount tfs + neutralCount tfs) * 100),
             pyRound2 ((neutralCount tfs : ℚ) /
              (bullishCount tfs + bearishCount tfs + neutralCount tfs) * 100))
         else none) ∧
      (pyIn "BULLISH" "OVERBOUGHT" = false ∧ pyIn "BEARISH" "OVERBOUGHT" = false ∧
        pyIn "BULLISH" "OVERSOLD" = false ∧ pyIn "BEARISH" "OVERSOLD" = false ∧
        pyIn "BULLISH" "NEUTRAL" = false ∧ pyIn "BEARISH" "NEUTRAL" = false) := by
  intro tfs
  refine ⟨tallySignals_eq_counts tfs, ?_, by decide⟩
  simp only [generate_summary, tallySignals_eq_counts tfs]
  push_cast
  rfl

/-- The per-timeframe loop is compositional in the request list. -/
theorem successfulAnalyses_append
    (body : List Candle → String → Except String TimeframeAnalysis)
    (getData : String → List Candle) (l1 l2 : List String) :
    successfulAnalyses body getData (l1 ++ l2) =
      successfulAnalyses body getData l1 ++ successfulAnalyses body getData l2 := by
  unfold successfulAnalyses
  induction l1 with
  | nil => simp
  | cons tf rest ih =>
      rw [List.cons_append, List.foldr_cons, List.foldr_cons, ih]
      cases analyze_timeframe body (getData tf) tf <;> simp

/-- C7.  A timeframe whose retrieved series has fewer than 50 candles
fails and contributes nothing: removing it from the request list leaves
the successful analyses of the remaining timeframes unchanged.  If every
requested timeframe has fewer than 50 candles, the whole request fails
with the data-insufficiency error.  Otherwise the response carries
exactly the successful analyses and a summary computed from them
alone. -/
theorem C7_insufficient_timeframes_excluded :
    ∀ (body : List Candle → String → Except String TimeframeAnalysis)
      (getData : String → List Candle) (pre post : List String) (tf : String),
      ((getData tf).length < 50 →
        successfulAnalyses body getData (pre ++ tf :: post) =
          successfulAnalyses body getData (pre ++ post)) ∧
      ((∀ t ∈ pre ++ tf :: post, (getData t).length < 50) →
        analyze_stock body getData (pre ++ tf :: post) =
          Except.error "No successful analysis for any timeframe") ∧
      (successfulAnalyses body getData (pre ++ tf :: post) ≠ [] →
        analyze_stock body getData (pre ++ tf :: post) =
          Except.ok ⟨successfulAnalyses body getData (pre ++ tf :: post),
            generate_summary
              (successfulAnalyses body getData (pre ++ tf :: post))⟩) := by
  intro body getData pre post tf
  have hshort : ∀ t, (getData t).length < 50 →
      successfulAnalyses body getData [t] = [] := by
    intro t ht
    unfold successfulAnalyses
    rw [List.foldr_cons, List.foldr_nil]
    unfold analyze_timeframe
    rw [if_pos ht]
  have hall : ∀ l : List String, (∀ t ∈ l, (getData t).length < 50) →
      successfulAnalyses body getData l = [] := by
    intro l
    induction l with
    | nil => intro _; rfl
    | cons t rest ih =>
        intro h
        have : successfulAnalyses body getData ([t] ++ rest) = [] := by
          rw [successfulAnalyses_append, hshort t (h t (by simp)),
            ih (fun u hu => h u (by simp [hu]))]
          rfl
        simpa using this
  refine ⟨?_, ?_, ?_⟩
  · intro ht
    rw [show pre ++ tf :: post = pre ++ [tf] ++ post by simp,
      successfulAnalyses_append, successfulAnalyses_append,
      successfulAnalyses_append, hshort tf ht]
    simp
  · intro h
    unfold analyze_stock
    rw [hall _ h]
    rfl
  · intro h
    unfold analyze_stock
    rw [if_neg (by simpa [List.isEmpty_iff] using h)]

/-- C7 witness: with a data source returning no candles at all, the
single requested timeframe fails the 50-candle check and the overall
request fails with the data-insufficiency error. -/
theorem C7_insufficient_timeframes_excluded_witness :
    analyze_stock emptyBody (fun _ => []) ["1day"] =
      Except.error "No successful analysis for any timeframe" :=
  (C7_insufficient_timeframes_excluded emptyBody (fun _ => []) [] [] "1day").2.1
    (by intro t ht; simp)
